import Mathlib

/-!
Shallow embedding of `src/rust/src/lib.rs` (highperapp/router): a per-method
route table built on a pattern trie, a bounded result cache, and the
C-boundary envelope protocol.  The `matchit` trie crate is an external
dependency whose sources are not part of this repository; its observable
contract (pattern syntax, precedence, insert failures) is modelled from the
specification and marked `Modelled from the spec:` below.  Everything else
follows `lib.rs` line by line.
-/

namespace RouterSpec

/-- Modelled from the spec: a pattern segment of the external `matchit` trie.
A segment is either a literal, a named parameter (written `:name`), or a
catch-all (written `*name`) matching the remainder of the path. -/
inductive Seg where
  | lit (s : String)
  | param (name : String)
  | catchAll (name : String)
deriving DecidableEq

/-- Split a string on the `/` character, keeping empty segments
(auxiliary, structural recursion over the character list). -/
def splitAux : List Char → List Char → List String
  | [], acc => [String.mk acc.reverse]
  | c :: cs, acc =>
    if c = '/' then String.mk acc.reverse :: splitAux cs []
    else splitAux cs (c :: acc)

/-- Split a path string on `/`. -/
def splitSlash (s : String) : List String := splitAux s.data []

/-- Modelled from the spec: parse one pattern segment of the external trie.
A leading `:` makes a named parameter, a leading `*` a catch-all; an empty
capture name is malformed parameter syntax. -/
def parseSeg (s : String) : Option Seg :=
  match s.data with
  | ':' :: rest => if rest.isEmpty then none else some (.param (String.mk rest))
  | '*' :: rest => if rest.isEmpty then none else some (.catchAll (String.mk rest))
  | _ => some (.lit s)

/-- Modelled from the spec: a catch-all segment may only appear last. -/
def validSegs : List Seg → Bool
  | [] => true
  | [_] => true
  | .catchAll _ :: _ :: _ => false
  | _ :: rest => validSegs rest

/-- Modelled from the spec: parse a whole pattern into segments; `none`
is the `InvalidPattern` rejection of the external trie. -/
def parsePattern (p : String) : Option (List Seg) :=
  match (splitSlash p).mapM parseSeg with
  | none => none
  | some segs => if validSegs segs then some segs else none

/-- A match outcome: handler identifier plus captured parameters in the
order they were bound while walking the pattern. -/
abbrev MatchResult := String × List (String × String)

/-- Modelled from the spec: match a parsed pattern against the path
segments; a path must match the full pattern length, parameters capture one
segment verbatim, a trailing catch-all captures the remainder. -/
def matchSegs : List Seg → List String → Option (List (String × String))
  | [.catchAll n], xs => some [(n, String.intercalate "/" xs)]
  | [], [] => some []
  | .lit s :: segs, x :: xs => if s = x then matchSegs segs xs else none
  | .param n :: segs, x :: xs => (matchSegs segs xs).map (fun ps => (n, x) :: ps)
  | _, _ => none

/-- Modelled from the spec: per-segment precedence rank
(static < named parameter < catch-all; lower wins). -/
def segRank : Seg → Nat
  | .lit _ => 0
  | .param _ => 1
  | .catchAll _ => 2

/-- Lexicographic strict order on rank lists (an exhausted pattern prefix
ranks before a longer one). -/
def rankLt : List Nat → List Nat → Bool
  | [], [] => false
  | [], _ :: _ => true
  | _ :: _, [] => false
  | a :: as, b :: bs => if a < b then true else if b < a then false else rankLt as bs

/-- The routes stored in one per-method trie: parsed pattern and handler,
in registration order. -/
abbrev Routes := List (List Seg × String)

/-- All routes of the trie that match the given path segments, tagged with
their precedence ranks. -/
def candidates (routes : Routes) (parts : List String) :
    List (List Nat × MatchResult) :=
  routes.filterMap (fun e =>
    (matchSegs e.1 parts).map (fun ps => (e.1.map segRank, (e.2, ps))))

/-- Keep the best-ranked candidate, earliest registration winning ties. -/
def pickFrom (best : List Nat × MatchResult) :
    List (List Nat × MatchResult) → List Nat × MatchResult
  | [] => best
  | c :: cs => pickFrom (if rankLt c.1 best.1 then c else best) cs

/-- Modelled from the spec: the external trie's lookup — among all routes
matching the path, return the one of highest precedence
(static over parameter over catch-all, segment by segment). -/
def liveMatch (routes : Routes) (path : String) : Option MatchResult :=
  match candidates routes (splitSlash path) with
  | [] => none
  | c :: cs => some (pickFrom c cs).2

/-- Modelled from the spec: the external trie's insert, used by
`Router::add_route`.  It rejects a malformed pattern (`InvalidPattern`) and
a duplicate of an already registered exact pattern (`PatternConflict`);
on success the route is appended. -/
def insertRoute (routes : Routes) (p h : String) : Option Routes :=
  match parsePattern p with
  | none => none
  | some segs =>
    if routes.any (fun e => e.1 = segs) then none
    else some (routes ++ [(segs, h)])

/-- A cached value is the `serde_json` string stored in `route_cache`,
abstracted to its deserialization outcome: values written by the router
always round-trip, and any other string is `corrupt`. -/
inductive SVal where
  | ok (r : MatchResult)
  | corrupt
deriving DecidableEq

/-- `serde_json::from_str` on a cached value (mirrors line 62 of lib.rs). -/
def deserialize : SVal → Option MatchResult
  | .ok r => some r
  | .corrupt => none

/-- `serde_json::to_string` of a match result (mirrors line 79 of lib.rs);
serialization of this type always succeeds. -/
def serialize (r : MatchResult) : SVal := .ok r

/-- `HashMap::get`, on the association-list model of a hash map. -/
def lookupA (k : String) : List (String × α) → Option α
  | [] => none
  | (k2, v) :: rest => if k = k2 then some v else lookupA k rest

/-- `HashMap::insert`: overwrite the key if present, otherwise add it. -/
def insertA (k : String) (v : α) : List (String × α) → List (String × α)
  | [] => [(k, v)]
  | (k2, v2) :: rest =>
    if k = k2 then (k, v) :: rest else (k2, v2) :: insertA k v rest

/-- The router state of lib.rs lines 37-41: per-method tries, the result
cache, and the cache capacity.  The two `AHashMap`s are modelled as
association lists. -/
structure Router where
  routers : List (String × Routes)
  route_cache : List (String × SVal)
  max_cache_size : Nat
deriving DecidableEq

/-- `Router::new` (lib.rs lines 44-50). -/
def Router.new : Router := ⟨[], [], 1000⟩

/-- `Router::add_route` (lib.rs lines 52-56).  Mirrors
`self.routers.entry(method).or_insert_with(MatchitRouter::new)` followed by
`router.insert(path, handler_id)?`: the method's trie entry is created
first (empty when the method is new), then the insert is attempted; the
returned flag is `true` on `Ok`. -/
def Router.add_route (r : Router) (method p h : String) : Router × Bool :=
  let existing := (lookupA method r.routers).getD []
  match insertRoute existing p h with
  | some routes2 => ({ r with routers := insertA method routes2 r.routers }, true)
  | none => ({ r with routers := insertA method existing r.routers }, false)

/-- The live-matching half of `Router::match_route` (lib.rs lines 67-88):
look up the method's trie, match the path, and on success cache the result
when there is room.  Serialization of the result always succeeds, so the
`if let Ok(serialized)` guard of line 79 is always taken. -/
def Router.matchLive (r : Router) (method path cache_key : String) :
    Option MatchResult × Router :=
  match lookupA method r.routers with
  | none => (none, r)
  | some routes =>
    match liveMatch routes path with
    | none => (none, r)
    | some res =>
      let cache2 :=
        if r.route_cache.length < r.max_cache_size then
          insertA cache_key (serialize res) r.route_cache
        else r.route_cache
      (some res, { r with route_cache := cache2 })

/-- `Router::match_route` (lib.rs lines 58-89): build the cache key
`format!("{}:{}", method, path)`, return a deserializable cached value if
present, otherwise fall through to live matching. -/
def Router.match_route (r : Router) (method path : String) :
    Option MatchResult × Router :=
  let cache_key := method ++ ":" ++ path
  match lookupA cache_key r.route_cache with
  | some v =>
    match deserialize v with
    | some res => (some res, r)
    | none => r.matchLive method path cache_key
  | none => r.matchLive method path cache_key

/-- `Router::clear_cache` (lib.rs lines 91-93). -/
def Router.clear_cache (r : Router) : Router := { r with route_cache := [] }

/-- The statistics record of lib.rs lines 112-118. -/
structure RouterStats where
  method_count : Nat
  route_count : Nat
  cache_size : Nat
  cache_capacity : Nat
deriving DecidableEq

/-- `Router::get_stats` (lib.rs lines 95-109): `route_count` is computed by
the loop that adds 1 per per-method trie. -/
def Router.get_stats (r : Router) : RouterStats :=
  let route_count := r.routers.foldl (fun acc _ => acc + 1) 0
  { method_count := r.routers.length
    route_count := route_count
    cache_size := r.route_cache.length
    cache_capacity := r.max_cache_size }

/-- The pure matching outcome of `match_route` ignoring the cache: what the
method's trie says about the path. -/
def liveResult (r : Router) (method path : String) : Option MatchResult :=
  match lookupA method r.routers with
  | none => none
  | some routes => liveMatch routes path

/-- The routes registered for a method (empty when the method has no trie). -/
def routesOf (r : Router) (method : String) : Routes :=
  (lookupA method r.routers).getD []

/-- A `*const c_char` argument as seen after the boundary checks of lib.rs:
a null pointer, a non-UTF-8 byte sequence, or a valid string. -/
inductive CInput where
  | null
  | notUtf8
  | str (s : String)
deriving DecidableEq

/-- The `RouterResult` envelope of lib.rs lines 10-15; `data` is the
payload (`none` models a null `data` pointer). -/
structure RouterResult where
  data : Option String
  len : Nat
  status : Int
deriving DecidableEq

/-- `RouterResult::success` (lib.rs lines 18-26): `CString::new` fails on an
interior NUL byte, in which case the payload falls back to the empty
string; `len` is the byte length of the payload. -/
def RouterResult.success (s : String) : RouterResult :=
  if s.data.contains (Char.ofNat 0) then ⟨some "", 0, 0⟩
  else ⟨some s, s.utf8ByteSize, 0⟩

/-- `RouterResult::error` (lib.rs lines 28-34): null payload, zero length. -/
def RouterResult.error (status : Int) : RouterResult := ⟨none, 0, status⟩

/-- One hexadecimal digit, lowercase, as emitted by `serde_json`. -/
def hexDigit (n : Nat) : Char :=
  if n < 10 then Char.ofNat (48 + n) else Char.ofNat (87 + n)

/-- `serde_json` string escaping for one character. -/
def escChar (c : Char) : List Char :=
  if c = '"' then ['\\', '"']
  else if c = '\\' then ['\\', '\\']
  else if c = Char.ofNat 8 then ['\\', 'b']
  else if c = Char.ofNat 9 then ['\\', 't']
  else if c = Char.ofNat 10 then ['\\', 'n']
  else if c = Char.ofNat 12 then ['\\', 'f']
  else if c = Char.ofNat 13 then ['\\', 'r']
  else if c.toNat < 32 then
    ['\\', 'u', '0', '0', hexDigit (c.toNat / 16), hexDigit (c.toNat % 16)]
  else [c]

/-- A JSON string literal for `s`. -/
def jstr (s : String) : String :=
  String.mk ('"' :: (s.data.map escChar).flatten ++ ['"'])

/-- A JSON object with string values, fields in the given order. -/
def jobj (fields : List (String × String)) : String :=
  "\x7b" ++ String.intercalate "," (fields.map (fun kv => jstr kv.1 ++ ":" ++ jstr kv.2)) ++ "\x7d"

/-- Lexicographic comparison of character lists (for Unicode scalar values
this agrees with Rust's byte-wise `String` ordering). -/
def charListLe : List Char → List Char → Bool
  | [], _ => true
  | _ :: _, [] => false
  | a :: as, b :: bs => if a < b then true else if b < a then false else charListLe as bs

/-- Lexicographic string comparison, the order of `BTreeMap<String, _>`. -/
def strLe (a b : String) : Bool := charListLe a.data b.data

/-- Insert into a key-sorted association list, keeping it sorted. -/
def insertSorted (kv : String × String) :
    List (String × String) → List (String × String)
  | [] => [kv]
  | x :: xs => if strLe kv.1 x.1 then kv :: x :: xs else x :: insertSorted kv xs

/-- Sort an association list by key (insertion sort). -/
def sortByKey (l : List (String × String)) : List (String × String) :=
  l.foldr insertSorted []

/-- `params.into_iter().collect::<HashMap<String, String>>()` followed by
`serde_json::json!` (lib.rs line 199): the ordered parameter vector is
collected into a hash map (later bindings of a duplicate key win) and then
into `serde_json`'s map, which orders its entries by key (a `BTreeMap` with
the crate's default features) — the canonical content is the key-sorted,
key-deduplicated association list. -/
def collectHashMap (ps : List (String × String)) : List (String × String) :=
  sortByKey (ps.foldl (fun acc kv => insertA kv.1 kv.2 acc) [])

/-- The JSON payload of a successful `router_match`
(lib.rs lines 197-200): `{"handler": ..., "params": {...}}`, with the
top-level keys in `serde_json`'s key order. -/
def encodeMatch (h : String) (cps : List (String × String)) : String :=
  "\x7b\"handler\":" ++ jstr h ++ ",\"params\":" ++ jobj cps ++ "\x7d"

/-- `router_match` (lib.rs lines 176-209): null checks first (status -1),
then UTF-8 validation of method (-2) and path (-3), then `match_route`;
a match yields a success envelope with the JSON payload, no match yields
status -404. -/
def router_match (r : Router) (method path : CInput) : RouterResult × Router :=
  match method, path with
  | .null, _ => (.error (-1), r)
  | _, .null => (.error (-1), r)
  | .notUtf8, _ => (.error (-2), r)
  | _, .notUtf8 => (.error (-3), r)
  | .str m, .str p =>
    match r.match_route m p with
    | (some res, r2) => (.success (encodeMatch res.1 (collectHashMap res.2)), r2)
    | (none, r2) => (.error (-404), r2)

/-- The structured payload of `router_match` on valid inputs: the handler
and the params as collected into the hash map (lib.rs lines 196-200). -/
def matchPayload (r : Router) (m p : String) :
    Option (String × List (String × String)) :=
  match (r.match_route m p).1 with
  | some res => some (res.1, collectHashMap res.2)
  | none => none

/-- One entry of the batch array of `router_batch_add_routes`, abstracted
to the outcomes of `route["method"].as_str()` etc. (lib.rs lines 257-261):
`none` when the field is missing or not a string. -/
structure BatchEntry where
  method : Option String
  path : Option String
  handler : Option String
deriving DecidableEq

/-- The loop body of `router_batch_add_routes` (lib.rs lines 256-266):
a well-formed entry is registered (counting successes), anything else is
skipped. -/
def batchStep (acc : Router × Nat) (e : BatchEntry) : Router × Nat :=
  match e.method, e.path, e.handler with
  | some m, some p, some h =>
    let step := acc.1.add_route m p h
    (step.1, if step.2 then acc.2 + 1 else acc.2)
  | _, _, _ => acc

/-- The state-and-count part of `router_batch_add_routes`
(lib.rs lines 252-266): fold the entries, returning the final router, the
`added_count`, and `total_routes`. -/
def batchAddRoutes (r : Router) (es : List BatchEntry) : Router × Nat × Nat :=
  let out := es.foldl batchStep (r, 0)
  (out.1, out.2, es.length)

/-- The byte buffer passed to `router_batch_add_routes`, abstracted to the
outcome of the boundary checks of lib.rs lines 237-250: null pointer,
invalid UTF-8, valid JSON that is not an array, or an array of entries. -/
inductive BatchInput where
  | null
  | notUtf8
  | notArray
  | arr (es : List BatchEntry)
deriving DecidableEq

/-- The `{"added": ..., "total": ...}` payload of lib.rs lines 268-271
(`serde_json` orders the keys, and "added" < "total"). -/
def encodeBatch (added total : Nat) : String :=
  "\x7b\"added\":" ++ toString added ++ ",\"total\":" ++ toString total ++ "\x7d"

/-- `router_batch_add_routes` (lib.rs lines 233-277): status -1 on null,
-2 on invalid UTF-8, -3 when the JSON is not an array; otherwise every
entry is processed and the envelope reports the added/total counts. -/
def router_batch_add_routes (r : Router) (input : BatchInput) :
    RouterResult × Router :=
  match input with
  | .null => (.error (-1), r)
  | .notUtf8 => (.error (-2), r)
  | .notArray => (.error (-3), r)
  | .arr es =>
    let out := batchAddRoutes r es
    (.success (encodeBatch out.2.1 out.2.2), out.1)

/-- One state-relevant boundary operation on the global router. -/
inductive Op where
  | create
  | addRoute (m p h : String)
  | matchR (m p : String)
  | clearCache
  | batch (es : List BatchEntry)

/-- The state transition of one boundary operation (`router_create` resets
to `Router::new`; `router_get_stats` and invalid-input calls leave the
state unchanged and are omitted). -/
def applyOp (r : Router) : Op → Router
  | .create => Router.new
  | .addRoute m p h => (r.add_route m p h).1
  | .matchR m p => (r.match_route m p).2
  | .clearCache => r.clear_cache
  | .batch es => (batchAddRoutes r es).1

/-- The router state after a sequence of boundary operations starting from
a fresh router. -/
def runOps (ops : List Op) : Router := ops.foldl applyOp Router.new

/-- The names of the capture segments of a pattern, in declaration order. -/
def paramNames : List Seg → List String
  | [] => []
  | .lit _ :: rest => paramNames rest
  | .param n :: rest => n :: paramNames rest
  | .catchAll n :: rest => n :: paramNames rest

/-- Cache coherence: every deserializable cache entry agrees with live
matching under the current route table, for every (method, path) pair that
builds its key. -/
def CacheCoherent (r : Router) : Prop :=
  ∀ m p v res, lookupA (m ++ ":" ++ p) r.route_cache = some v →
    deserialize v = some res → liveResult r m p = some res

/-- A router whose cache holds a corrupt (undeserializable) value for the
key `GET:/a` while the live table matches `/a` for method `GET`. -/
def corruptRouter : Router :=
  { routers := [("GET", [([Seg.lit "", Seg.lit "a"], "H")])]
    route_cache := [("GET:/a", SVal.corrupt)]
    max_cache_size := 1000 }

/-- A router whose cache is exactly at capacity. -/
def fullRouter : Router :=
  { routers := [("GET", [([Seg.lit "", Seg.lit "a"], "H")])]
    route_cache := [("k", SVal.ok ("h", []))]
    max_cache_size := 1 }

/-- A fresh router with the single route GET `/a` → `H`. -/
def sampleRouter : Router := runOps [Op.addRoute "GET" "/a" "H"]

/-- The spec's batch scenario: three entries, the middle one with the
unparsable pattern `:`. -/
def demoBatch : List BatchEntry :=
  [⟨some "GET", some "/a", some "h1"⟩,
   ⟨some "GET", some ":", some "hbad"⟩,
   ⟨some "GET", some "/b", some "h2"⟩]

end RouterSpec

namespace RouterSpec

theorem foldl_count (l : List α) (n : Nat) :
    l.foldl (fun acc _ => acc + 1) n = n + l.length := by
  induction l generalizing n with
  | nil => simp
  | cons a t ih => simp [List.foldl_cons, ih]; omega

theorem matchLive_fst (r : Router) (m p k : String) :
    (r.matchLive m p k).1 = liveResult r m p := by
  cases h1 : lookupA m r.routers with
  | none => simp [Router.matchLive, liveResult, h1]
  | some routes =>
    cases h2 : liveMatch routes p with
    | none => simp [Router.matchLive, liveResult, h1, h2]
    | some res => simp [Router.matchLive, liveResult, h1, h2]

theorem match_route_clear_fst (r : Router) (m p : String) :
    ((r.clear_cache).match_route m p).1 = liveResult r m p :=
  matchLive_fst r.clear_cache m p (m ++ ":" ++ p)

/-- C8: for every router state, the `route_count` field of `get_stats`
equals `method_count` — the loop counts one per per-method trie, so the
reported route count is really the number of methods with a trie. -/
theorem c8_route_count_equals_method_count (r : Router) :
    (r.get_stats).route_count = (r.get_stats).method_count := by
  simp [Router.get_stats, foldl_count]

/-- C2 (failing input): on a fresh router, `add_route "GET" ":" "h"` is
rejected by the matcher (malformed parameter syntax), yet `method_count`
rises from 0 to 1 — `entry(..).or_insert_with(..)` creates an empty trie
for `GET` before the insert fails, so a failing `addRoute` does change the
router state, contradicting the no-side-effect claim. -/
theorem c2_failed_add_route_leaves_empty_trie :
    (Router.new.add_route "GET" ":" "h").2 = false ∧
    (Router.new.get_stats).method_count = 0 ∧
    (((Router.new.add_route "GET" ":" "h").1).get_stats).method_count = 1 ∧
    routesOf (Router.new.add_route "GET" ":" "h").1 "GET" = [] := by
  decide

/-- C5: with `/users/:id` and `/users/new` both registered for GET under
distinct handlers, matching `/users/new` returns the static route's
handler, and `/users/42` still reaches the parameterized one. -/
theorem c5_static_over_param :
    (((runOps [Op.addRoute "GET" "/users/:id" "hParam",
               Op.addRoute "GET" "/users/new" "hStatic"]).match_route
        "GET" "/users/new").1 = some ("hStatic", [])) ∧
    (((runOps [Op.addRoute "GET" "/users/:id" "hParam",
               Op.addRoute "GET" "/users/new" "hStatic"]).match_route
        "GET" "/users/42").1 = some ("hParam", [("id", "42")])) ∧
    "hStatic" ≠ "hParam" := by
  decide

/-- C1 (counterexample): the cache key `method ++ ":" ++ path` is not
injective, so in the reachable state below — routes `a:b` for method `GET`
and `b` for method `GET:a`, after one cached lookup — matching
(`GET:a`, `b`) returns `H1` from the cache but `H2` once the cache is
cleared, although the route table is unchanged between the two runs. -/
theorem c1_counterexample :
    (runOps [Op.addRoute "GET" "a:b" "H1", Op.addRoute "GET:a" "b" "H2",
             Op.matchR "GET" "a:b"]).clear_cache.routers =
      (runOps [Op.addRoute "GET" "a:b" "H1", Op.addRoute "GET:a" "b" "H2",
               Op.matchR "GET" "a:b"]).routers ∧
    ((runOps [Op.addRoute "GET" "a:b" "H1", Op.addRoute "GET:a" "b" "H2",
              Op.matchR "GET" "a:b"]).match_route "GET:a" "b").1 =
      some ("H1", []) ∧
    (((runOps [Op.addRoute "GET" "a:b" "H1", Op.addRoute "GET:a" "b" "H2",
               Op.matchR "GET" "a:b"]).clear_cache).match_route "GET:a" "b").1 =
      some ("H2", []) ∧
    some (("H1", []) : MatchResult) ≠ some (("H2", []) : MatchResult) := by
  decide

/-- C1 (amended): whenever every cache entry is coherent with the current
route table (each deserializable cached value equals the live match result
of every (method, path) pair producing its key), `match_route` returns the
same result whether or not the cache is cleared immediately before the
call. -/
theorem c1_cache_transparent_of_coherent (r : Router) (hc : CacheCoherent r)
    (m p : String) :
    (r.match_route m p).1 = ((r.clear_cache).match_route m p).1 := by
  rw [match_route_clear_fst]
  show (r.match_route m p).1 = liveResult r m p
  cases hv : lookupA (m ++ ":" ++ p) r.route_cache with
  | none => simp [Router.match_route, hv, matchLive_fst]
  | some v =>
    cases hd : deserialize v with
    | none => simp [Router.match_route, hv, hd, matchLive_fst]
    | some res =>
      simp [Router.match_route, hv, hd]
      exact (hc m p v res hv hd).symm

theorem c1_cache_transparent_witness :
    (sampleRouter.match_route "GET" "/a").1 =
      ((sampleRouter.clear_cache).match_route "GET" "/a").1 :=
  c1_cache_transparent_of_coherent sampleRouter
    (by
      intro m p v res hv _
      rw [show sampleRouter.route_cache = [] from rfl] at hv
      simp [lookupA] at hv)
    "GET" "/a"

theorem matchLive_snd_of_none (r : Router) (m p k : String)
    (h : liveResult r m p = none) : (r.matchLive m p k).2 = r := by
  cases h1 : lookupA m r.routers with
  | none => simp [Router.matchLive, h1]
  | some routes =>
    have h2 : liveMatch routes p = none := by
      simpa [liveResult, h1] using h
    simp [Router.matchLive, h1, h2]

/-- C10: when live matching finds no route for (method, path) — no trie
for the method, or the trie rejects the path — `match_route` leaves the
cache exactly as it was, entry for entry, and `cache_size` is unchanged:
only successful live matches are ever stored. -/
theorem c10_not_found_leaves_cache (r : Router) (m p : String)
    (h : liveResult r m p = none) :
    (r.match_route m p).2.route_cache = r.route_cache ∧
    ((r.match_route m p).2.get_stats).cache_size = (r.get_stats).cache_size := by
  have hcache : (r.match_route m p).2.route_cache = r.route_cache := by
    cases hv : lookupA (m ++ ":" ++ p) r.route_cache with
    | none => simp [Router.match_route, hv, matchLive_snd_of_none r m p _ h]
    | some v =>
      cases hd : deserialize v with
      | none => simp [Router.match_route, hv, hd, matchLive_snd_of_none r m p _ h]
      | some res => simp [Router.match_route, hv, hd]
  exact ⟨hcache, by simp [Router.get_stats, hcache]⟩

theorem c10_not_found_witness :
    (Router.new.match_route "GET" "/missing").2.route_cache =
      Router.new.route_cache ∧
    ((Router.new.match_route "GET" "/missing").2.get_stats).cache_size =
      (Router.new.get_stats).cache_size :=
  c10_not_found_leaves_cache Router.new "GET" "/missing" (by decide)

/-- C9: a cached value that exists for the looked-up key but cannot be
deserialized is treated exactly as a cache miss: `match_route` falls
through to live trie matching, returns the live result, and agrees with
the result after clearing the cache — no error is surfaced. -/
theorem c9_corrupt_cache_entry_is_miss (r : Router) (m p : String) (v : SVal)
    (hv : lookupA (m ++ ":" ++ p) r.route_cache = some v)
    (hd : deserialize v = none) :
    (r.match_route m p).1 = liveResult r m p ∧
    (r.match_route m p).1 = ((r.clear_cache).match_route m p).1 := by
  have h1 : (r.match_route m p).1 = liveResult r m p := by
    simp [Router.match_route, hv, hd, matchLive_fst]
  exact ⟨h1, by rw [h1, match_route_clear_fst]⟩

theorem c9_corrupt_cache_witness :
    (corruptRouter.match_route "GET" "/a").1 = liveResult corruptRouter "GET" "/a" ∧
    (corruptRouter.match_route "GET" "/a").1 =
      ((corruptRouter.clear_cache).match_route "GET" "/a").1 :=
  c9_corrupt_cache_entry_is_miss corruptRouter "GET" "/a" SVal.corrupt
    (by decide) (by decide)

end RouterSpec

namespace RouterSpec

theorem length_insertA_le (k : String) (v : α) (l : List (String × α)) :
    (insertA k v l).length ≤ l.length + 1 := by
  induction l with
  | nil => simp [insertA]
  | cons x xs ih =>
    obtain ⟨k2, v2⟩ := x
    simp only [insertA]
    split
    · simp
    · simpa using Nat.succ_le_succ ih

theorem add_route_cache_fields (r : Router) (m p h : String) :
    (r.add_route m p h).1.route_cache = r.route_cache ∧
    (r.add_route m p h).1.max_cache_size = r.max_cache_size := by
  cases hins : insertRoute ((lookupA m r.routers).getD []) p h <;>
    simp [Router.add_route, hins]

theorem matchLive_eq_of_some (r : Router) (m p k : String) (routes : Routes)
    (res : MatchResult) (h1 : lookupA m r.routers = some routes)
    (h2 : liveMatch routes p = some res) :
    r.matchLive m p k = (some res,
      { r with route_cache :=
          if r.route_cache.length < r.max_cache_size then
            insertA k (serialize res) r.route_cache
          else r.route_cache }) := by
  simp [Router.matchLive, h1, h2]

theorem match_route_cache_le (r : Router) (m p : String)
    (hle : r.route_cache.length ≤ r.max_cache_size) :
    (r.match_route m p).2.route_cache.length ≤ r.max_cache_size ∧
    (r.match_route m p).2.max_cache_size = r.max_cache_size := by
  have hlive : ∀ k, (r.matchLive m p k).2.route_cache.length ≤ r.max_cache_size ∧
      (r.matchLive m p k).2.max_cache_size = r.max_cache_size := by
    intro k
    cases h1 : lookupA m r.routers with
    | none => simp [Router.matchLive, h1, hle]
    | some routes =>
      cases h2 : liveMatch routes p with
      | none => simp [Router.matchLive, h1, h2, hle]
      | some res =>
        rw [matchLive_eq_of_some r m p k routes res h1 h2]
        refine ⟨?_, rfl⟩
        by_cases hcap : r.route_cache.length < r.max_cache_size
        · simpa [hcap] using le_trans (length_insertA_le _ _ _) (by omega)
        · simpa [hcap] using hle
  cases hv : lookupA (m ++ ":" ++ p) r.route_cache with
  | none => simpa [Router.match_route, hv] using hlive (m ++ ":" ++ p)
  | some v =>
    cases hd : deserialize v with
    | none => simpa [Router.match_route, hv, hd] using hlive (m ++ ":" ++ p)
    | some res => simp [Router.match_route, hv, hd, hle]

theorem batch_cache_fields (es : List BatchEntry) :
    ∀ acc : Router × Nat,
      (es.foldl batchStep acc).1.route_cache = acc.1.route_cache ∧
      (es.foldl batchStep acc).1.max_cache_size = acc.1.max_cache_size := by
  induction es with
  | nil => intro acc; simp
  | cons e es ih =>
    intro acc
    have hstep : (batchStep acc e).1.route_cache = acc.1.route_cache ∧
        (batchStep acc e).1.max_cache_size = acc.1.max_cache_size := by
      cases e with
      | mk em ep eh =>
        cases em <;> cases ep <;> cases eh <;>
          simp [batchStep, add_route_cache_fields]
    have := ih (batchStep acc e)
    simp only [List.foldl_cons]
    exact ⟨this.1.trans hstep.1, this.2.trans hstep.2⟩

theorem applyOp_cache_inv (r : Router) (op : Op)
    (h : r.route_cache.length ≤ r.max_cache_size ∧ r.max_cache_size = 1000) :
    (applyOp r op).route_cache.length ≤ (applyOp r op).max_cache_size ∧
    (applyOp r op).max_cache_size = 1000 := by
  cases op with
  | create => exact ⟨by simp [applyOp, Router.new], rfl⟩
  | addRoute m p hh =>
    have hf := add_route_cache_fields r m p hh
    simp only [applyOp]
    rw [hf.1, hf.2]
    exact h
  | matchR m p =>
    have hf := match_route_cache_le r m p h.1
    simp only [applyOp]
    rw [hf.2]
    exact ⟨hf.1, h.2⟩
  | clearCache => exact ⟨by simp [applyOp, Router.clear_cache], h.2⟩
  | batch es =>
    have hf := batch_cache_fields es (r, 0)
    simp only [applyOp, batchAddRoutes]
    rw [hf.1, hf.2]
    exact h

theorem runOps_cache_inv (ops : List Op) :
    (runOps ops).route_cache.length ≤ (runOps ops).max_cache_size ∧
    (runOps ops).max_cache_size = 1000 := by
  suffices h : ∀ (l : List Op) (r : Router),
      r.route_cache.length ≤ r.max_cache_size ∧ r.max_cache_size = 1000 →
      (l.foldl applyOp r).route_cache.length ≤ (l.foldl applyOp r).max_cache_size ∧
      (l.foldl applyOp r).max_cache_size = 1000 by
    exact h ops Router.new ⟨by simp [Router.new], rfl⟩
  intro l
  induction l with
  | nil => intro r hr; simpa using hr
  | cons op l ih =>
    intro r hr
    simpa [List.foldl_cons] using ih (applyOp r op) (applyOp_cache_inv r op hr)

/-- C4: starting from a fresh router, after any sequence of boundary
operations the number of cache entries reported by `get_stats` never
exceeds the capacity, which stays 1000; and in any state whose cache is
full, `match_route` leaves the cache exactly as it was — no entry is
inserted and none is evicted (fill-once-then-freeze). -/
theorem c4_cache_capacity :
    (∀ ops : List Op,
       ((runOps ops).get_stats).cache_size ≤ ((runOps ops).get_stats).cache_capacity ∧
       ((runOps ops).get_stats).cache_capacity = 1000) ∧
    (∀ (r : Router) (m p : String),
       (r.get_stats).cache_size = (r.get_stats).cache_capacity →
       (r.match_route m p).2.route_cache = r.route_cache) := by
  constructor
  · intro ops
    have h := runOps_cache_inv ops
    exact ⟨by simpa [Router.get_stats] using h.1, by simpa [Router.get_stats] using h.2⟩
  · intro r m p hfull
    have hfull2 : r.route_cache.length = r.max_cache_size := by
      simpa [Router.get_stats] using hfull
    have hlive : ∀ k, (r.matchLive m p k).2.route_cache = r.route_cache := by
      intro k
      cases h1 : lookupA m r.routers with
      | none => simp [Router.matchLive, h1]
      | some routes =>
        cases h2 : liveMatch routes p with
        | none => simp [Router.matchLive, h1, h2]
        | some res =>
          rw [matchLive_eq_of_some r m p k routes res h1 h2]
          simp [if_neg (show ¬ r.route_cache.length < r.max_cache_size by omega)]
    cases hv : lookupA (m ++ ":" ++ p) r.route_cache with
    | none => simpa [Router.match_route, hv] using hlive (m ++ ":" ++ p)
    | some v =>
      cases hd : deserialize v with
      | none => simpa [Router.match_route, hv, hd] using hlive (m ++ ":" ++ p)
      | some res => simp [Router.match_route, hv, hd]

theorem c4_cache_capacity_witness :
    (((runOps [Op.matchR "GET" "/a"]).get_stats).cache_size ≤
       ((runOps [Op.matchR "GET" "/a"]).get_stats).cache_capacity) ∧
    (fullRouter.match_route "GET" "/a").2.route_cache = fullRouter.route_cache :=
  ⟨(c4_cache_capacity.1 [Op.matchR "GET" "/a"]).1,
   c4_cache_capacity.2 fullRouter "GET" "/a" (by decide)⟩

end RouterSpec

namespace RouterSpec

theorem success_status (s : String) : (RouterResult.success s).status = 0 := by
  unfold RouterResult.success
  split <;> rfl

theorem success_data_isSome (s : String) : (RouterResult.success s).data.isSome := by
  unfold RouterResult.success
  split <;> rfl

/-- C6: the `router_match` envelope has status -1 when method or path is a
null pointer, -2 when the method bytes are not valid UTF-8 (path non-null),
-3 when the path bytes are not valid UTF-8 (method a valid string), a
success envelope with the JSON payload exactly when `match_route` finds a
route, -404 when it does not; every non-zero-status envelope carries no
payload (null data, length 0), and every zero-status envelope carries one. -/
theorem c6_match_envelope (r : Router) :
    (∀ p, (router_match r .null p).1 = RouterResult.error (-1)) ∧
    (∀ m, (router_match r m .null).1 = RouterResult.error (-1)) ∧
    (∀ p, p ≠ CInput.null → (router_match r .notUtf8 p).1 = RouterResult.error (-2)) ∧
    (∀ s, (router_match r (.str s) .notUtf8).1 = RouterResult.error (-3)) ∧
    (∀ m p res r2, r.match_route m p = (some res, r2) →
       router_match r (.str m) (.str p) =
         (RouterResult.success (encodeMatch res.1 (collectHashMap res.2)), r2)) ∧
    (∀ m p r2, r.match_route m p = (none, r2) →
       router_match r (.str m) (.str p) = (RouterResult.error (-404), r2)) ∧
    (∀ m p, (router_match r m p).1.status ≠ 0 →
       (router_match r m p).1.data = none ∧ (router_match r m p).1.len = 0) ∧
    (∀ m p, (router_match r m p).1.status = 0 → (router_match r m p).1.data.isSome) := by
  refine ⟨?_, ?_, ?_, ?_, ?_, ?_, ?_, ?_⟩
  · intro p; cases p <;> rfl
  · intro m; cases m <;> rfl
  · intro p hp; cases p with
    | null => exact absurd rfl hp
    | notUtf8 => rfl
    | str s => rfl
  · intro s; rfl
  · intro m p res r2 h
    show (match r.match_route m p with
      | (some res, r2) => (RouterResult.success (encodeMatch res.1 (collectHashMap res.2)), r2)
      | (none, r2) => (RouterResult.error (-404), r2)) =
      (RouterResult.success (encodeMatch res.1 (collectHashMap res.2)), r2)
    rw [h]
  · intro m p r2 h
    show (match r.match_route m p with
      | (some res, r2) => (RouterResult.success (encodeMatch res.1 (collectHashMap res.2)), r2)
      | (none, r2) => (RouterResult.error (-404), r2)) = (RouterResult.error (-404), r2)
    rw [h]
  · intro m p hst
    cases m with
    | null => cases p <;> exact ⟨rfl, rfl⟩
    | notUtf8 => cases p <;> exact ⟨rfl, rfl⟩
    | str s =>
      cases p with
      | null => exact ⟨rfl, rfl⟩
      | notUtf8 => exact ⟨rfl, rfl⟩
      | str t =>
        rcases hmr : r.match_route s t with ⟨o, r2⟩
        cases o with
        | some res =>
          exfalso
          apply hst
          have heq : (router_match r (.str s) (.str t)).1 =
              RouterResult.success (encodeMatch res.1 (collectHashMap res.2)) := by
            show (match r.match_route s t with
              | (some res, r2) => (RouterResult.success (encodeMatch res.1 (collectHashMap res.2)), r2)
              | (none, r2) => (RouterResult.error (-404), r2)).1 = _
            rw [hmr]
          rw [heq]
          exact success_status _
        | none =>
          have heq : (router_match r (.str s) (.str t)).1 = RouterResult.error (-404) := by
            show (match r.match_route s t with
              | (some res, r2) => (RouterResult.success (encodeMatch res.1 (collectHashMap res.2)), r2)
              | (none, r2) => (RouterResult.error (-404), r2)).1 = _
            rw [hmr]
          rw [heq]
          exact ⟨rfl, rfl⟩
  · intro m p hst
    cases m with
    | null => cases p <;> exact absurd hst (Int.noConfusion)
    | notUtf8 =>
      cases p with
      | null => exact absurd hst (Int.noConfusion)
      | notUtf8 => exact absurd hst (Int.noConfusion)
      | str t => exact absurd hst (Int.noConfusion)
    | str s =>
      cases p with
      | null => exact absurd hst (Int.noConfusion)
      | notUtf8 => exact absurd hst (Int.noConfusion)
      | str t =>
        rcases hmr : r.match_route s t with ⟨o, r2⟩
        have hred : router_match r (.str s) (.str t) =
            (match r.match_route s t with
              | (some res, r2) => (RouterResult.success (encodeMatch res.1 (collectHashMap res.2)), r2)
              | (none, r2) => (RouterResult.error (-404), r2)) := rfl
        cases o with
        | some res =>
          rw [hred, hmr]
          exact success_data_isSome _
        | none =>
          exfalso
          rw [hred, hmr] at hst
          exact absurd hst (Int.noConfusion)

theorem c6_match_envelope_witness :
    (router_match Router.new .null (.str "/a")).1 = RouterResult.error (-1) ∧
    (router_match Router.new (.str "GET") .null).1 = RouterResult.error (-1) ∧
    (router_match Router.new .notUtf8 (.str "/a")).1 = RouterResult.error (-2) ∧
    (router_match Router.new (.str "GET") .notUtf8).1 = RouterResult.error (-3) ∧
    router_match sampleRouter (.str "GET") (.str "/a") =
      (RouterResult.success (encodeMatch "H" (collectHashMap [])),
       (sampleRouter.match_route "GET" "/a").2) ∧
    router_match Router.new (.str "GET") (.str "/a") =
      (RouterResult.error (-404), Router.new) ∧
    ((router_match Router.new .null .null).1.data = none ∧
     (router_match Router.new .null .null).1.len = 0) ∧
    (router_match sampleRouter (.str "GET") (.str "/a")).1.data.isSome :=
  ⟨(c6_match_envelope Router.new).1 (.str "/a"),
   (c6_match_envelope Router.new).2.1 (.str "GET"),
   (c6_match_envelope Router.new).2.2.1 (.str "/a") (by decide),
   (c6_match_envelope Router.new).2.2.2.1 "GET",
   (c6_match_envelope sampleRouter).2.2.2.2.1 "GET" "/a" ("H", [])
     ((sampleRouter.match_route "GET" "/a").2) (by decide),
   (c6_match_envelope Router.new).2.2.2.2.2.1 "GET" "/a" Router.new (by decide),
   (c6_match_envelope Router.new).2.2.2.2.2.2.1 .null .null (by decide),
   (c6_match_envelope sampleRouter).2.2.2.2.2.2.2 (.str "GET") (.str "/a") (by decide)⟩

end RouterSpec

namespace RouterSpec

/-- C3 (counterexample): with the pattern `/:b/:a` registered, matching
`/y/x` binds the params in declaration order `[(b, y), (a, x)]` inside
`match_route`, but the payload handed to the caller by `router_match`
carries them as `[(a, x), (b, y)]` — the `collect::<HashMap<_, _>>()`
into `serde_json`'s key-ordered map discards the declaration order. -/
theorem c3_counterexample :
    ((runOps [Op.addRoute "GET" "/:b/:a" "h"]).match_route "GET" "/y/x").1 =
      some ("h", [("b", "y"), ("a", "x")]) ∧
    matchPayload (runOps [Op.addRoute "GET" "/:b/:a" "h"]) "GET" "/y/x" =
      some ("h", [("a", "x"), ("b", "y")]) ∧
    ([("a", "x"), ("b", "y")] : List (String × String)) ≠
      [("b", "y"), ("a", "x")] := by
  decide

theorem matchSegs_param_names :
    ∀ (segs : List Seg) (parts : List String) (ps : List (String × String)),
      matchSegs segs parts = some ps → ps.map Prod.fst = paramNames segs := by
  intro segs
  induction segs with
  | nil =>
    intro parts ps h
    cases parts with
    | nil =>
      simp [matchSegs] at h
      subst h
      rfl
    | cons x xs => simp [matchSegs] at h
  | cons s rest ih =>
    intro parts ps h
    cases s with
    | lit v =>
      cases parts with
      | nil => simp [matchSegs] at h
      | cons x xs =>
        by_cases hv : v = x
        · rw [show matchSegs (Seg.lit v :: rest) (x :: xs) = matchSegs rest xs by
            simp [matchSegs, hv]] at h
          simpa [paramNames] using ih xs ps h
        · rw [show matchSegs (Seg.lit v :: rest) (x :: xs) = none by
            simp [matchSegs, hv]] at h
          cases h
    | param n =>
      cases parts with
      | nil => simp [matchSegs] at h
      | cons x xs =>
        rw [show matchSegs (Seg.param n :: rest) (x :: xs) =
            (matchSegs rest xs).map (fun ps => (n, x) :: ps) from rfl] at h
        cases hrec : matchSegs rest xs with
        | none => rw [hrec] at h; cases h
        | some ps2 =>
          rw [hrec] at h
          simp at h
          subst h
          simpa [paramNames] using ih xs ps2 hrec
    | catchAll n =>
      cases rest with
      | nil =>
        rw [show matchSegs [Seg.catchAll n] parts =
            some [(n, String.intercalate "/" parts)] from rfl] at h
        simp at h
        subst h
        rfl
      | cons s2 rest2 =>
        cases parts with
        | nil => simp [matchSegs] at h
        | cons x xs => simp [matchSegs] at h

theorem pickFrom_mem (cs : List (List Nat × MatchResult)) :
    ∀ best, pickFrom best cs ∈ best :: cs := by
  induction cs with
  | nil => intro best; simp [pickFrom]
  | cons c cs ih =>
    intro best
    have h := ih (if rankLt c.1 best.1 then c else best)
    rw [show pickFrom best (c :: cs) =
        pickFrom (if rankLt c.1 best.1 then c else best) cs from rfl]
    rcases List.mem_cons.mp h with h1 | h1
    · rw [h1]
      split
      · exact List.mem_cons_of_mem _ (List.mem_cons_self c cs)
      · exact List.mem_cons_self _ _
    · exact List.mem_cons_of_mem _ (List.mem_cons_of_mem _ h1)

theorem charListLe_total (a b : List Char) :
    charListLe a b = false → charListLe b a = true := by
  induction a generalizing b with
  | nil => intro h; simp [charListLe] at h
  | cons x xs ih =>
    intro h
    cases b with
    | nil => simp [charListLe]
    | cons y ys =>
      simp only [charListLe] at h ⊢
      by_cases h1 : x < y
      · simp [h1] at h
      · by_cases h2 : y < x
        · simp [h2]
        · have hxy : ¬ y < x := h2
          simp [h1, h2] at h
          simp [h1, h2, hxy]
          have : ¬ y < x := h2
          exact ih ys h

theorem strLe_total (a b : String) : strLe a b = false → strLe b a = true :=
  charListLe_total a.data b.data

theorem chain_insertSorted (kv : String × String) (l : List (String × String))
    (h : List.Chain' (fun a b => strLe a.1 b.1 = true) l) :
    List.Chain' (fun a b => strLe a.1 b.1 = true) (insertSorted kv l) := by
  induction l with
  | nil => simp [insertSorted]
  | cons x xs ih =>
    rw [show insertSorted kv (x :: xs) =
        if strLe kv.1 x.1 then kv :: x :: xs else x :: insertSorted kv xs from rfl]
    split
    · exact List.Chain'.cons (by assumption) h
    · have hx : strLe x.1 kv.1 = true := strLe_total _ _ (by
        rename_i hle
        exact Bool.eq_false_iff.mpr hle)
      have hxs := List.chain'_cons'.mp h
      have hrec := ih hxs.2
      apply List.chain'_cons'.mpr
      refine ⟨?_, hrec⟩
      intro y hy
      cases xs with
      | nil =>
        rw [show insertSorted kv [] = [kv] from rfl] at hy
        simp at hy
        rw [← hy]
        exact hx
      | cons z zs =>
        rw [show insertSorted kv (z :: zs) =
            if strLe kv.1 z.1 then kv :: z :: zs else z :: insertSorted kv zs from rfl] at hy
        split at hy
        · simp at hy
          rw [← hy]
          exact hx
        · simp at hy
          rw [← hy]
          exact hxs.1 z rfl

theorem chain_sortByKey (l : List (String × String)) :
    List.Chain' (fun a b => strLe a.1 b.1 = true) (sortByKey l) := by
  induction l with
  | nil => simp [sortByKey]
  | cons x xs ih =>
    rw [show sortByKey (x :: xs) = insertSorted x (sortByKey xs) from rfl]
    exact chain_insertSorted x _ ih

/-- C3 (amended): the internal match operation delivers the captured
params in the declaration order of the matched pattern's parameters, but
the payload built by `router_match` rearranges them into ascending name
order (the content of an unordered hash map re-emitted by `serde_json`'s
key-sorted map), so the boundary payload does not preserve declaration
order. -/
theorem c3_param_order :
    (∀ (routes : Routes) (path h : String) (ps : List (String × String)),
       liveMatch routes path = some (h, ps) →
       ∃ segs, (segs, h) ∈ routes ∧
         matchSegs segs (splitSlash path) = some ps ∧
         ps.map Prod.fst = paramNames segs) ∧
    (∀ (r : Router) (m p hh : String) (cps : List (String × String)),
       matchPayload r m p = some (hh, cps) →
       List.Chain' (fun a b => strLe a.1 b.1 = true) cps) := by
  constructor
  · intro routes path h ps hlm
    cases hc : candidates routes (splitSlash path) with
    | nil => rw [liveMatch, hc] at hlm; cases hlm
    | cons c cs =>
      rw [liveMatch, hc] at hlm
      have hmem : pickFrom c cs ∈ candidates routes (splitSlash path) := by
        rw [hc]; exact pickFrom_mem cs c
      obtain ⟨e, hein, hemap⟩ := List.mem_filterMap.mp hmem
      obtain ⟨ps2, hps2, heq⟩ := Option.map_eq_some'.mp hemap
      have hsnd : (pickFrom c cs).2 = (h, ps) := by
        injection hlm
      rw [← heq] at hsnd
      simp at hsnd
      refine ⟨e.1, ?_, ?_, ?_⟩
      · rw [show (e.1, h) = e from by rw [← hsnd.1]] at *
        exact hein
      · rw [hps2, hsnd.2]
      · rw [← hsnd.2]
        exact matchSegs_param_names e.1 _ ps2 hps2
  · intro r m p hh cps hmp
    rw [matchPayload] at hmp
    cases ho : (r.match_route m p).1 with
    | none => rw [ho] at hmp; cases hmp
    | some res =>
      rw [ho] at hmp
      simp at hmp
      rw [← hmp.2, collectHashMap]
      exact chain_sortByKey _

theorem c3_param_order_witness :
    (∃ segs, (segs, "h") ∈
        routesOf (runOps [Op.addRoute "GET" "/:b/:a" "h"]) "GET" ∧
        matchSegs segs (splitSlash "/y/x") = some [("b", "y"), ("a", "x")] ∧
        ([("b", "y"), ("a", "x")] : List (String × String)).map Prod.fst =
          paramNames segs) ∧
    List.Chain' (fun a b => strLe a.1 b.1 = true)
      ([("a", "x"), ("b", "y")] : List (String × String)) :=
  ⟨c3_param_order.1 (routesOf (runOps [Op.addRoute "GET" "/:b/:a" "h"]) "GET")
      "/y/x" "h" [("b", "y"), ("a", "x")] (by decide),
   c3_param_order.2 (runOps [Op.addRoute "GET" "/:b/:a" "h"]) "GET" "/y/x"
      "h" [("a", "x"), ("b", "y")] (by decide)⟩

end RouterSpec

namespace RouterSpec

theorem lookupA_insertA_self (k : String) (v : α) :
    ∀ l : List (String × α), lookupA k (insertA k v l) = some v := by
  intro l
  induction l with
  | nil => simp [insertA, lookupA]
  | cons x xs ih =>
    obtain ⟨k2, v2⟩ := x
    by_cases hk : k = k2
    · simp [insertA, lookupA, hk]
    · simp [insertA, lookupA, hk, ih]

theorem lookupA_insertA_ne (k k2 : String) (hne : k2 ≠ k) (v : α) :
    ∀ l : List (String × α), lookupA k2 (insertA k v l) = lookupA k2 l := by
  intro l
  induction l with
  | nil => simp [insertA, lookupA, hne]
  | cons x xs ih =>
    obtain ⟨k3, v3⟩ := x
    by_cases hk : k = k3
    · subst hk
      simp [insertA, lookupA, hne]
    · by_cases hk2 : k2 = k3
      · simp [insertA, lookupA, hk, hk2]
      · simp [insertA, lookupA, hk, hk2, ih]

theorem routesOf_add_success (r : Router) (m p h : String) (rt : Routes)
    (hins : insertRoute (routesOf r m) p h = some rt) :
    routesOf (r.add_route m p h).1 m = rt := by
  have hins2 : insertRoute ((lookupA m r.routers).getD []) p h = some rt := hins
  simp [Router.add_route, hins2, routesOf, lookupA_insertA_self]

theorem insertRoute_some (routes : Routes) (p h : String) (rt : Routes)
    (hins : insertRoute routes p h = some rt) :
    ∃ segs, parsePattern p = some segs ∧ rt = routes ++ [(segs, h)] := by
  cases hp : parsePattern p with
  | none =>
    exfalso
    have hins2 : (none : Option Routes) = some rt := by
      rw [insertRoute, hp] at hins
      exact hins
    cases hins2
  | some segs =>
    have hins2 : (if routes.any (fun e => e.1 = segs) then none
        else some (routes ++ [(segs, h)])) = some rt := by
      rw [insertRoute, hp] at hins
      exact hins
    split at hins2
    · cases hins2
    · injection hins2 with h2
      exact ⟨segs, rfl, h2.symm⟩

theorem mem_routesOf_add (r : Router) (m p h m2 : String)
    (x : List Seg × String) (hx : x ∈ routesOf r m2) :
    x ∈ routesOf (r.add_route m p h).1 m2 := by
  by_cases hm : m2 = m
  · subst hm
    cases hins : insertRoute (routesOf r m2) p h with
    | none =>
      have hins2 : insertRoute ((lookupA m2 r.routers).getD []) p h = none := hins
      simpa [Router.add_route, hins2, routesOf, lookupA_insertA_self] using hx
    | some rt =>
      rw [routesOf_add_success r m2 p h rt hins]
      obtain ⟨segs, _, hrt⟩ := insertRoute_some _ _ _ _ hins
      rw [hrt]
      exact List.mem_append_left _ hx
  · cases hins : insertRoute ((lookupA m r.routers).getD []) p h with
    | none =>
      simpa [Router.add_route, hins, routesOf, lookupA_insertA_ne m m2 hm] using hx
    | some rt =>
      simpa [Router.add_route, hins, routesOf, lookupA_insertA_ne m m2 hm] using hx

theorem mem_routesOf_batchStep (acc : Router × Nat) (e : BatchEntry)
    (m2 : String) (x : List Seg × String) (hx : x ∈ routesOf acc.1 m2) :
    x ∈ routesOf (batchStep acc e).1 m2 := by
  obtain ⟨em, ep, eh⟩ := e
  cases em with
  | none => exact hx
  | some m =>
    cases ep with
    | none => exact hx
    | some p =>
      cases eh with
      | none => exact hx
      | some h => exact mem_routesOf_add acc.1 m p h m2 x hx

theorem mem_routesOf_foldl (es : List BatchEntry) :
    ∀ (acc : Router × Nat) (m2 : String) (x : List Seg × String),
      x ∈ routesOf acc.1 m2 → x ∈ routesOf (es.foldl batchStep acc).1 m2 := by
  induction es with
  | nil => intro acc m2 x hx; simpa using hx
  | cons e es ih =>
    intro acc m2 x hx
    simpa [List.foldl_cons] using
      ih (batchStep acc e) m2 x (mem_routesOf_batchStep acc e m2 x hx)

theorem batchStep_malformed (acc : Router × Nat) (e : BatchEntry)
    (hmal : e.method = none ∨ e.path = none ∨ e.handler = none) :
    batchStep acc e = acc := by
  obtain ⟨em, ep, eh⟩ := e
  cases em with
  | none => rfl
  | some m =>
    cases ep with
    | none => rfl
    | some p =>
      cases eh with
      | none => rfl
      | some h => simp at hmal

theorem add_route_success_mem (r0 : Router) (m p h : String) (segs : List Seg)
    (hparse : parsePattern p = some segs)
    (hok : (r0.add_route m p h).2 = true) :
    (segs, h) ∈ routesOf (r0.add_route m p h).1 m := by
  cases hins : insertRoute (routesOf r0 m) p h with
  | none =>
    exfalso
    have hins2 : insertRoute ((lookupA m r0.routers).getD []) p h = none := hins
    simp [Router.add_route, hins2] at hok
  | some rt =>
    rw [routesOf_add_success r0 m p h rt hins]
    obtain ⟨segs2, hp2, hrt⟩ := insertRoute_some _ _ _ _ hins
    rw [hp2] at hparse
    injection hparse with hseq
    rw [hrt, hseq]
    exact List.mem_append_right _ (List.mem_singleton.mpr rfl)

/-- C7: every batch call on an entry array returns a success envelope
(status 0) whose payload reports `added` and `total = N`; a malformed
entry (missing or non-string field) anywhere in the batch is skipped
without affecting the final router state or the added count of the other
entries; an entry whose registration succeeds ends up registered in the
final route table; and in the spec's concrete scenario — three entries,
one with an unparsable pattern — `added = 2`, `total = 3`, and both valid
routes are subsequently matchable. -/
theorem c7_batch_partial_success (r : Router) (es : List BatchEntry) :
    ((router_batch_add_routes r (.arr es)).1 =
       RouterResult.success (encodeBatch (batchAddRoutes r es).2.1 es.length) ∧
     (router_batch_add_routes r (.arr es)).1.status = 0 ∧
     (batchAddRoutes r es).2.2 = es.length) ∧
    (∀ es1 e es2, es = es1 ++ e :: es2 →
       (e.method = none ∨ e.path = none ∨ e.handler = none) →
       (batchAddRoutes r es).1 = (batchAddRoutes r (es1 ++ es2)).1 ∧
       (batchAddRoutes r es).2.1 = (batchAddRoutes r (es1 ++ es2)).2.1) ∧
    (∀ es1 e es2 m p h segs, es = es1 ++ e :: es2 →
       e = ⟨some m, some p, some h⟩ →
       parsePattern p = some segs →
       (((es1.foldl batchStep (r, 0)).1).add_route m p h).2 = true →
       (segs, h) ∈ routesOf (batchAddRoutes r es).1 m) ∧
    ((batchAddRoutes Router.new demoBatch).2.1 = 2 ∧
     (batchAddRoutes Router.new demoBatch).2.2 = 3 ∧
     ((batchAddRoutes Router.new demoBatch).1.match_route "GET" "/a").1 =
       some ("h1", []) ∧
     ((batchAddRoutes Router.new demoBatch).1.match_route "GET" "/b").1 =
       some ("h2", [])) := by
  refine ⟨⟨rfl, success_status _, rfl⟩, ?_, ?_, by decide⟩
  · intro es1 e es2 heq hmal
    subst heq
    have hfold : (es1 ++ e :: es2).foldl batchStep (r, 0) =
        (es1 ++ es2).foldl batchStep (r, 0) := by
      rw [List.foldl_append, List.foldl_append, List.foldl_cons,
        batchStep_malformed _ e hmal]
    constructor
    · show ((es1 ++ e :: es2).foldl batchStep (r, 0)).1 = _
      rw [hfold]
      rfl
    · show ((es1 ++ e :: es2).foldl batchStep (r, 0)).2 = _
      rw [hfold]
      rfl
  · intro es1 e es2 m p h segs heq hee hparse hok
    subst heq
    subst hee
    show (segs, h) ∈ routesOf ((es1 ++ ⟨some m, some p, some h⟩ :: es2).foldl
      batchStep (r, 0)).1 m
    rw [List.foldl_append, List.foldl_cons]
    apply mem_routesOf_foldl es2
    show (segs, h) ∈
      routesOf (batchStep (es1.foldl batchStep (r, 0)) ⟨some m, some p, some h⟩).1 m
    have hstep : (batchStep (es1.foldl batchStep (r, 0)) ⟨some m, some p, some h⟩).1 =
        (((es1.foldl batchStep (r, 0)).1).add_route m p h).1 := rfl
    rw [hstep]
    exact add_route_success_mem _ m p h segs hparse hok

theorem c7_batch_partial_success_witness :
    ((batchAddRoutes Router.new [(⟨none, none, none⟩ : BatchEntry)]).1 =
       (batchAddRoutes Router.new ([] ++ [])).1 ∧
     (batchAddRoutes Router.new [(⟨none, none, none⟩ : BatchEntry)]).2.1 =
       (batchAddRoutes Router.new ([] ++ [])).2.1) ∧
    ([Seg.lit "", Seg.lit "a"], "h") ∈
      routesOf (batchAddRoutes Router.new
        [(⟨some "GET", some "/a", some "h"⟩ : BatchEntry)]).1 "GET" :=
  ⟨(c7_batch_partial_success Router.new [⟨none, none, none⟩]).2.1
      [] ⟨none, none, none⟩ [] rfl (Or.inl rfl),
   (c7_batch_partial_success Router.new [⟨some "GET", some "/a", some "h"⟩]).2.2.1
      [] ⟨some "GET", some "/a", some "h"⟩ [] "GET" "/a" "h"
      [Seg.lit "", Seg.lit "a"] rfl rfl (by decide) (by decide)⟩

end RouterSpec
